import Mathlib

/-!
Verification of the stream-selection, verification and dependency-check logic
of trim-streams (src/trim_streams.py, src/validate.py), as a shallow embedding.

Conventions of the embedding:
* A probed stream (`StreamDict` in the source) is modelled by the fields the
  code reads: `index`, `codec_type`, and the value of `tags.get("language")`.
  In the source, `tags: Any = stream.get("tags", {})` followed by
  `language: str = tags.get("language", "und")` yields `"und"` exactly when the
  `tags` object is absent or lacks a `"language"` entry; we model the looked-up
  entry as an `Option String` (`none` = absent tags or absent key).
* External effects (ffprobe / ffmpeg subprocess outcomes, the filesystem state
  of the output file) are passed in explicitly as data.
-/

/-- The `codec_type` / `index` / language data of one probed stream
(trim_streams.py, `StreamDict` plus the reads in `get_stream_mappings`). -/
structure StreamDict where
  index : Nat
  codec_type : String
  tags_language : Option String
deriving DecidableEq, Repr

/-- `language: str = tags.get("language", "und")` in `get_stream_mappings`. -/
def StreamDict.language (s : StreamDict) : String :=
  s.tags_language.getD "und"

/-- The probe data the selection logic consumes: the ordered `streams` list of
the ffprobe JSON document (`ProbeData["streams"]`). -/
abbrev ProbeData := List StreamDict

/-- `ProcessingConfig` (trim_streams.py): language lists and mode flags. -/
structure ProcessingConfig where
  audio_langs : List String
  subtitle_langs : List String
  copy_streams : Bool
  verify_output : Bool
deriving DecidableEq, Repr

/-- `ProcessingStatus` (trim_streams.py). -/
inductive ProcessingStatus where
  | initializing
  | analyzing
  | processing
  | verifying
  | completed
  | failed
deriving DecidableEq, BEq, Repr

/-- The two distinct `FFProbeError` raise sites of `get_stream_mappings`:
`"No video stream in ..."` and `"No matching streams found in ..."`. -/
inductive SelectionError where
  | noVideoStream
  | noMatchingStreams
deriving DecidableEq, Repr

/-- `codec_type == "video"` in `get_stream_mappings`. -/
def isVideo (s : StreamDict) : Bool := s.codec_type == "video"

/-- `codec_type == "audio"` in `get_stream_mappings`. -/
def isAudio (s : StreamDict) : Bool := s.codec_type == "audio"

/-- `codec_type == "subtitle"` in `get_stream_mappings`. -/
def isSubtitle (s : StreamDict) : Bool := s.codec_type == "subtitle"

/-- `codec_type == "audio" and language in self.config.audio_langs`
(trim_streams.py line 145); Python `in` on a list of strings is exact,
case-sensitive membership, as is `List.contains`. -/
def audioKeep (cfg : ProcessingConfig) (s : StreamDict) : Bool :=
  isAudio s && cfg.audio_langs.contains s.language

/-- `codec_type == "subtitle" and language in self.config.subtitle_langs`
(trim_streams.py line 148). -/
def subtitleKeep (cfg : ProcessingConfig) (s : StreamDict) : Bool :=
  isSubtitle s && cfg.subtitle_langs.contains s.language

/-- The `for stream in self.probe_data["streams"]` loop of
`get_stream_mappings` (trim_streams.py lines 136-151): returns the selected
streams in probe order together with the final value of `video_mapped`.
The branch structure mirrors the source's `if`/`elif` chain exactly. -/
def selectStreams (cfg : ProcessingConfig) : List StreamDict → Bool → List StreamDict × Bool
  | [], video_mapped => ([], video_mapped)
  | s :: rest, video_mapped =>
    if isVideo s && !video_mapped then
      let r := selectStreams cfg rest true
      (s :: r.1, r.2)
    else if audioKeep cfg s then
      let r := selectStreams cfg rest video_mapped
      (s :: r.1, r.2)
    else if subtitleKeep cfg s then
      let r := selectStreams cfg rest video_mapped
      (s :: r.1, r.2)
    else
      selectStreams cfg rest video_mapped

/-- Each selected stream contributes `["-map", f"0:{index}"]` to the mappings
list (trim_streams.py lines 143, 146, 149). -/
def mkMapArgs (indices : List Nat) : List String :=
  indices.flatMap (fun i => ["-map", "0:" ++ toString i])

/-- `VideoProcessor.get_stream_mappings` (trim_streams.py lines 128-158):
run the selection loop, then raise `FFProbeError` when no video stream was
mapped, then raise `FFProbeError` when the mappings list is empty, otherwise
return the mappings. -/
def get_stream_mappings (cfg : ProcessingConfig) (streams : List StreamDict) :
    Except SelectionError (List String) :=
  if !(selectStreams cfg streams false).2 then
    Except.error SelectionError.noVideoStream
  else if (mkMapArgs ((selectStreams cfg streams false).1.map StreamDict.index)).isEmpty then
    Except.error SelectionError.noMatchingStreams
  else
    Except.ok (mkMapArgs ((selectStreams cfg streams false).1.map StreamDict.index))

/-- `VideoProcessor.probe_file` (trim_streams.py lines 102-126) called with
`file_path = None`: when `self.probe_data` is cached it is returned without
probing; otherwise the result of the fresh ffprobe run on the input file
(passed in as `fresh`) is returned. -/
def probe_file (cached : Option ProbeData) (fresh : Except String ProbeData) :
    Except String ProbeData :=
  match cached with
  | some d => Except.ok d
  | none => fresh

/-- The three `raise` sites of `VideoProcessor.verify_output`. -/
inductive VerifyError where
  | failedToCreate
  | emptyOutput
  | outputVerificationFailed
deriving DecidableEq, Repr

/-- `VideoProcessor.verify_output` (trim_streams.py lines 160-172): error if
the output file does not exist, error if its size is 0, then call
`self.probe_file()` — note: with NO argument, so it probes the INPUT file and
returns the cached input probe when present; the output path is never passed
to ffprobe.  `freshInputProbe` is the outcome a fresh ffprobe run on the
input file would have. -/
def verify_output (cached : Option ProbeData) (freshInputProbe : Except String ProbeData)
    (outExists : Bool) (outSize : Nat) : Except VerifyError Unit :=
  if !outExists then Except.error VerifyError.failedToCreate
  else if outSize == 0 then Except.error VerifyError.emptyOutput
  else
    match probe_file cached freshInputProbe with
    | Except.ok _ => Except.ok ()
    | Except.error _ => Except.error VerifyError.outputVerificationFailed

/-- Outcome of the `subprocess.run(["ffmpeg", "-version"], ...)` check in
`validate_dependencies` (validate.py lines 56-65). -/
inductive FfmpegCheck where
  | available
  | notFound
  | otherError (msg : String)
deriving DecidableEq, Repr

/-- `log_error_and_return_false` (validate.py lines 32-35). -/
def log_error_and_return_false (_msg : String) : Bool :=
  false

/-- `validate_dependencies` (validate.py lines 38-69).  In the source, the
`except FileNotFoundError` and `except Exception` handlers call
`log_error_and_return_false(...)` but DISCARD its return value, so control
falls through to the final `return True` in every case.  (The Python-package
loop checks `if dist is None`, but `pkg_resources.find_distributions` returns
a generator and is never `None`, so that branch is also unreachable; it is
not modelled.) -/
def validate_dependencies (ffmpeg : FfmpegCheck) : Bool :=
  match ffmpeg with
  | FfmpegCheck.available => true
  | FfmpegCheck.notFound =>
      let _ := log_error_and_return_false "Missing dependency: ffmpeg."
      true
  | FfmpegCheck.otherError e =>
      let _ := log_error_and_return_false
        ("An unexpected error occurred while checking ffmpeg availability: " ++ e)
      true

/-- The outcomes of the external calls made while processing one file. -/
structure ProcEnv where
  probeResult : Except String ProbeData
  ffmpegOk : Bool
  outExists : Bool
  outSize : Nat
deriving Repr

/-- The sequence of assignments to `self.status` during one fresh
`VideoProcessor(...).process(output_file)` run (trim_streams.py lines 174-199),
in program order:
* `__init__` sets `INITIALIZING`;
* `process` sets `PROCESSING` on entry;
* `get_stream_mappings` finds `probe_data is None` and calls `probe_file`,
  which sets `ANALYZING`; a probe failure sets `FAILED` in `probe_file` and
  again in `process`'s `except` handler;
* a selection error or a non-zero ffmpeg exit sets `FAILED`;
* when `config.verify_output` is set, `verify_output` sets `VERIFYING`
  (its internal `probe_file()` call returns the cached input probe);
* finally `COMPLETED`, or `FAILED` from the `except` handlers. -/
def processTrace (cfg : ProcessingConfig) (env : ProcEnv) : List ProcessingStatus :=
  [ProcessingStatus.initializing, ProcessingStatus.processing, ProcessingStatus.analyzing] ++
  match env.probeResult with
  | Except.error _ => [ProcessingStatus.failed, ProcessingStatus.failed]
  | Except.ok pd =>
    match get_stream_mappings cfg pd with
    | Except.error _ => [ProcessingStatus.failed]
    | Except.ok _ =>
      if !env.ffmpegOk then [ProcessingStatus.failed]
      else if cfg.verify_output then
        ProcessingStatus.verifying ::
          (match verify_output (some pd) env.probeResult env.outExists env.outSize with
           | Except.error _ => [ProcessingStatus.failed]
           | Except.ok _ => [ProcessingStatus.completed])
      else [ProcessingStatus.completed]

/-- The position of a status in the order the claim asserts
(initializing → analyzing → processing → verifying → completed). -/
def claimedRank : ProcessingStatus → Nat
  | ProcessingStatus.initializing => 0
  | ProcessingStatus.analyzing => 1
  | ProcessingStatus.processing => 2
  | ProcessingStatus.verifying => 3
  | ProcessingStatus.completed => 4
  | ProcessingStatus.failed => 5

/-- The claimed monotonicity: along the trace, the status never moves backward
in `claimedRank` order, except that `failed` may be entered from anywhere. -/
def claimedMonotone : List ProcessingStatus → Bool
  | [] => true
  | [_] => true
  | a :: b :: rest =>
    ((b == ProcessingStatus.failed) || Nat.ble (claimedRank a) (claimedRank b)) &&
      claimedMonotone (b :: rest)

/-! ### Basic facts about the stream-kind predicates -/

theorem isAudio_eq_false_of_isVideo {s : StreamDict} (h : isVideo s = true) :
    isAudio s = false := by
  simp only [isVideo, beq_iff_eq] at h
  simp [isAudio, h]

theorem isSubtitle_eq_false_of_isVideo {s : StreamDict} (h : isVideo s = true) :
    isSubtitle s = false := by
  simp only [isVideo, beq_iff_eq] at h
  simp [isSubtitle, h]

theorem isVideo_eq_false_of_isAudio {s : StreamDict} (h : isAudio s = true) :
    isVideo s = false := by
  simp only [isAudio, beq_iff_eq] at h
  simp [isVideo, h]

theorem isVideo_eq_false_of_isSubtitle {s : StreamDict} (h : isSubtitle s = true) :
    isVideo s = false := by
  simp only [isSubtitle, beq_iff_eq] at h
  simp [isVideo, h]

theorem isAudio_eq_false_of_isSubtitle {s : StreamDict} (h : isSubtitle s = true) :
    isAudio s = false := by
  simp only [isSubtitle, beq_iff_eq] at h
  simp [isAudio, h]

theorem isSubtitle_eq_false_of_isAudio {s : StreamDict} (h : isAudio s = true) :
    isSubtitle s = false := by
  simp only [isAudio, beq_iff_eq] at h
  simp [isSubtitle, h]

/-! ### Structural lemmas about the selection loop -/

/-- The selected streams are a sublist of the probed streams: the loop
appends in probe order and never re-orders. -/
theorem selectStreams_sublist (cfg : ProcessingConfig) (l : List StreamDict) (vm : Bool) :
    ((selectStreams cfg l vm).1).Sublist l := by
  induction l generalizing vm with
  | nil => simp [selectStreams]
  | cons s rest ih =>
    simp only [selectStreams]
    split
    · exact List.Sublist.cons₂ s (ih true)
    · split
      · exact List.Sublist.cons₂ s (ih vm)
      · split
        · exact List.Sublist.cons₂ s (ih vm)
        · exact List.Sublist.cons s (ih vm)

/-- The final `video_mapped` flag is the initial flag or-ed with the presence
of a video stream. -/
theorem selectStreams_snd (cfg : ProcessingConfig) (l : List StreamDict) (vm : Bool) :
    (selectStreams cfg l vm).2 = (vm || l.any isVideo) := by
  induction l generalizing vm with
  | nil => simp [selectStreams]
  | cons s rest ih =>
    simp only [selectStreams, List.any_cons]
    split
    · rename_i h
      rw [Bool.and_eq_true, Bool.not_eq_true'] at h
      show (selectStreams cfg rest true).2 = (vm || (isVideo s || rest.any isVideo))
      rw [ih true, h.1, h.2]
      simp
    · rename_i h
      have key : (selectStreams cfg rest vm).2 = (vm || (isVideo s || rest.any isVideo)) := by
        rw [ih vm]
        cases hv : isVideo s
        · simp
        · have hvm : vm = true := by
            cases hm : vm
            · exact absurd (by rw [hv, hm]; rfl) h
            · rfl
          rw [hvm]
          simp
      split
      · exact key
      · split
        · exact key
        · exact key

/-- Unfolding equation: a not-yet-mapped video stream is selected. -/
theorem selectStreams_cons_video (cfg : ProcessingConfig) (s : StreamDict)
    (rest : List StreamDict) (vm : Bool) (h1 : (isVideo s && !vm) = true) :
    selectStreams cfg (s :: rest) vm =
      (s :: (selectStreams cfg rest true).1, (selectStreams cfg rest true).2) := by
  simp [selectStreams, h1]

/-- Unfolding equation: an audio stream with a kept language is selected. -/
theorem selectStreams_cons_audio (cfg : ProcessingConfig) (s : StreamDict)
    (rest : List StreamDict) (vm : Bool) (h1 : (isVideo s && !vm) = false)
    (h2 : audioKeep cfg s = true) :
    selectStreams cfg (s :: rest) vm =
      (s :: (selectStreams cfg rest vm).1, (selectStreams cfg rest vm).2) := by
  simp [selectStreams, h1, h2]

/-- Unfolding equation: a subtitle stream with a kept language is selected. -/
theorem selectStreams_cons_subtitle (cfg : ProcessingConfig) (s : StreamDict)
    (rest : List StreamDict) (vm : Bool) (h1 : (isVideo s && !vm) = false)
    (h2 : audioKeep cfg s = false) (h3 : subtitleKeep cfg s = true) :
    selectStreams cfg (s :: rest) vm =
      (s :: (selectStreams cfg rest vm).1, (selectStreams cfg rest vm).2) := by
  simp [selectStreams, h1, h2, h3]

/-- Unfolding equation: any other stream is skipped. -/
theorem selectStreams_cons_skip (cfg : ProcessingConfig) (s : StreamDict)
    (rest : List StreamDict) (vm : Bool) (h1 : (isVideo s && !vm) = false)
    (h2 : audioKeep cfg s = false) (h3 : subtitleKeep cfg s = false) :
    selectStreams cfg (s :: rest) vm = selectStreams cfg rest vm := by
  simp [selectStreams, h1, h2, h3]

/-- An audio-kept stream has `codec_type == "audio"`. -/
theorem isAudio_of_audioKeep {cfg : ProcessingConfig} {s : StreamDict}
    (h : audioKeep cfg s = true) : isAudio s = true := by
  simp only [audioKeep, Bool.and_eq_true] at h
  exact h.1

/-- A subtitle-kept stream has `codec_type == "subtitle"`. -/
theorem isSubtitle_of_subtitleKeep {cfg : ProcessingConfig} {s : StreamDict}
    (h : subtitleKeep cfg s = true) : isSubtitle s = true := by
  simp only [subtitleKeep, Bool.and_eq_true] at h
  exact h.1

/-- Once `video_mapped` is set, no further video stream is ever selected. -/
theorem selectStreams_filter_video_of_mapped (cfg : ProcessingConfig) (l : List StreamDict) :
    (selectStreams cfg l true).1.filter isVideo = [] := by
  induction l with
  | nil => simp [selectStreams]
  | cons s rest ih =>
    cases ha : audioKeep cfg s
    · cases hs : subtitleKeep cfg s
      · rw [selectStreams_cons_skip cfg s rest true (by simp) ha hs]
        exact ih
      · rw [selectStreams_cons_subtitle cfg s rest true (by simp) ha hs]
        simp [List.filter_cons,
          isVideo_eq_false_of_isSubtitle (isSubtitle_of_subtitleKeep hs), ih]
    · rw [selectStreams_cons_audio cfg s rest true (by simp) ha]
      simp [List.filter_cons,
        isVideo_eq_false_of_isAudio (isAudio_of_audioKeep ha), ih]

/-- The selected video streams are exactly the first video stream of the
input (the one `find?` locates). -/
theorem selectStreams_filter_video (cfg : ProcessingConfig) (l : List StreamDict)
    (v : StreamDict) (h : l.find? isVideo = some v) :
    (selectStreams cfg l false).1.filter isVideo = [v] := by
  induction l with
  | nil => simp at h
  | cons s rest ih =>
    cases hv : isVideo s
    · rw [List.find?_cons_of_neg _ (by simp [hv])] at h
      cases ha : audioKeep cfg s
      · cases hs : subtitleKeep cfg s
        · rw [selectStreams_cons_skip cfg s rest false (by simp [hv]) ha hs]
          exact ih h
        · rw [selectStreams_cons_subtitle cfg s rest false (by simp [hv]) ha hs]
          simp [List.filter_cons, hv]
          exact ih h
      · rw [selectStreams_cons_audio cfg s rest false (by simp [hv]) ha]
        simp [List.filter_cons, hv]
        exact ih h
    · rw [List.find?_cons_of_pos _ hv] at h
      injection h with h
      subst h
      rw [selectStreams_cons_video cfg s rest false (by simp [hv])]
      simp [List.filter_cons, hv, selectStreams_filter_video_of_mapped]

/-- The selected audio streams are exactly the audio streams whose language
tag is in `audio_langs`, in probe order, whatever the `video_mapped` state. -/
theorem selectStreams_filter_audio (cfg : ProcessingConfig) (l : List StreamDict) (vm : Bool) :
    (selectStreams cfg l vm).1.filter isAudio = l.filter (audioKeep cfg) := by
  induction l generalizing vm with
  | nil => simp [selectStreams]
  | cons s rest ih =>
    by_cases h1 : (isVideo s && !vm) = true
    · rw [selectStreams_cons_video cfg s rest vm h1]
      have hA : isAudio s = false := isAudio_eq_false_of_isVideo (Bool.and_elim_left h1)
      have hK : audioKeep cfg s = false := by simp [audioKeep, hA]
      simp [List.filter_cons, hA, hK, ih true]
    · have h1f : (isVideo s && !vm) = false := Bool.eq_false_iff.mpr h1
      cases ha : audioKeep cfg s
      · cases hs : subtitleKeep cfg s
        · rw [selectStreams_cons_skip cfg s rest vm h1f ha hs]
          simp [List.filter_cons, ha, ih vm]
        · rw [selectStreams_cons_subtitle cfg s rest vm h1f ha hs]
          have hA : isAudio s = false :=
            isAudio_eq_false_of_isSubtitle (isSubtitle_of_subtitleKeep hs)
          simp [List.filter_cons, hA, ha, ih vm]
      · rw [selectStreams_cons_audio cfg s rest vm h1f ha]
        have hA : isAudio s = true := isAudio_of_audioKeep ha
        simp [List.filter_cons, hA, ha, ih vm]

/-- The selected subtitle streams are exactly the subtitle streams whose
language tag is in `subtitle_langs`, in probe order. -/
theorem selectStreams_filter_subtitle (cfg : ProcessingConfig) (l : List StreamDict) (vm : Bool) :
    (selectStreams cfg l vm).1.filter isSubtitle = l.filter (subtitleKeep cfg) := by
  induction l generalizing vm with
  | nil => simp [selectStreams]
  | cons s rest ih =>
    by_cases h1 : (isVideo s && !vm) = true
    · rw [selectStreams_cons_video cfg s rest vm h1]
      have hS : isSubtitle s = false := isSubtitle_eq_false_of_isVideo (Bool.and_elim_left h1)
      have hK : subtitleKeep cfg s = false := by simp [subtitleKeep, hS]
      simp [List.filter_cons, hS, hK, ih true]
    · have h1f : (isVideo s && !vm) = false := Bool.eq_false_iff.mpr h1
      cases ha : audioKeep cfg s
      · cases hs : subtitleKeep cfg s
        · rw [selectStreams_cons_skip cfg s rest vm h1f ha hs]
          simp [List.filter_cons, hs, ih vm]
        · rw [selectStreams_cons_subtitle cfg s rest vm h1f ha hs]
          have hS : isSubtitle s = true := isSubtitle_of_subtitleKeep hs
          simp [List.filter_cons, hS, hs, ih vm]
      · rw [selectStreams_cons_audio cfg s rest vm h1f ha]
        have hS : isSubtitle s = false :=
          isSubtitle_eq_false_of_isAudio (isAudio_of_audioKeep ha)
        have hK : subtitleKeep cfg s = false := by simp [subtitleKeep, hS]
        simp [List.filter_cons, hS, hK, ih vm]

/-- No stream of a kind other than video, audio or subtitle is ever
selected. -/
theorem selectStreams_filter_other (cfg : ProcessingConfig) (l : List StreamDict) (vm : Bool) :
    (selectStreams cfg l vm).1.filter
      (fun s => !(isVideo s || isAudio s || isSubtitle s)) = [] := by
  induction l generalizing vm with
  | nil => simp [selectStreams]
  | cons s rest ih =>
    by_cases h1 : (isVideo s && !vm) = true
    · rw [selectStreams_cons_video cfg s rest vm h1]
      show List.filter (fun t => !(isVideo t || isAudio t || isSubtitle t))
          (s :: (selectStreams cfg rest true).1) = []
      rw [List.filter_cons_of_neg (by simp [Bool.and_elim_left h1])]
      exact ih true
    · have h1f : (isVideo s && !vm) = false := Bool.eq_false_iff.mpr h1
      cases ha : audioKeep cfg s
      · cases hs : subtitleKeep cfg s
        · rw [selectStreams_cons_skip cfg s rest vm h1f ha hs]
          exact ih vm
        · rw [selectStreams_cons_subtitle cfg s rest vm h1f ha hs]
          show List.filter (fun t => !(isVideo t || isAudio t || isSubtitle t))
              (s :: (selectStreams cfg rest vm).1) = []
          rw [List.filter_cons_of_neg (by simp [isSubtitle_of_subtitleKeep hs])]
          exact ih vm
      · rw [selectStreams_cons_audio cfg s rest vm h1f ha]
        show List.filter (fun t => !(isVideo t || isAudio t || isSubtitle t))
            (s :: (selectStreams cfg rest vm).1) = []
        rw [List.filter_cons_of_neg (by simp [isAudio_of_audioKeep ha])]
        exact ih vm

/-- When a video stream is present, the selection output is non-empty. -/
theorem selectStreams_fst_ne_nil (cfg : ProcessingConfig) (l : List StreamDict)
    (h : l.any isVideo = true) : (selectStreams cfg l false).1 ≠ [] := by
  obtain ⟨x, hx, hp⟩ := List.any_eq_true.mp h
  have hsome : (l.find? isVideo).isSome := List.find?_isSome.mpr ⟨x, hx, hp⟩
  obtain ⟨v, hv⟩ := Option.isSome_iff_exists.mp hsome
  have hf := selectStreams_filter_video cfg l v hv
  intro heq
  rw [heq] at hf
  simp at hf

/-- When a video stream is present, `get_stream_mappings` succeeds and
returns the map arguments of the selected streams. -/
theorem get_stream_mappings_eq_ok (cfg : ProcessingConfig) (streams : List StreamDict)
    (h : streams.any isVideo = true) :
    get_stream_mappings cfg streams
      = Except.ok (mkMapArgs ((selectStreams cfg streams false).1.map StreamDict.index)) := by
  have hsnd : (selectStreams cfg streams false).2 = true := by
    rw [selectStreams_snd]
    simp [h]
  have hne2 : (mkMapArgs ((selectStreams cfg streams false).1.map StreamDict.index)).isEmpty
      = false := by
    cases hsel : (selectStreams cfg streams false).1 with
    | nil => exact absurd hsel (selectStreams_fst_ne_nil cfg streams h)
    | cons a t => simp [mkMapArgs]
  simp only [get_stream_mappings, hsnd, hne2]
  simp

/-- When no audio or subtitle stream is kept and the video slot is already
taken, nothing further is selected. -/
theorem selectStreams_nothing_kept (cfg : ProcessingConfig) (l : List StreamDict)
    (ha : ∀ s ∈ l, audioKeep cfg s = false)
    (hs : ∀ s ∈ l, subtitleKeep cfg s = false) :
    selectStreams cfg l true = ([], true) := by
  induction l with
  | nil => rfl
  | cons s rest ih =>
    rw [selectStreams_cons_skip cfg s rest true (by simp)
      (ha s (List.mem_cons_self s rest)) (hs s (List.mem_cons_self s rest))]
    exact ih (fun t ht => ha t (List.mem_cons_of_mem s ht))
      (fun t ht => hs t (List.mem_cons_of_mem s ht))

/-- When the input has exactly one video stream and no matching audio or
subtitle stream, the selection is exactly that video stream. -/
theorem selectStreams_single_video (cfg : ProcessingConfig) (l : List StreamDict)
    (v : StreamDict) (hf : l.filter isVideo = [v])
    (ha : ∀ s ∈ l, audioKeep cfg s = false)
    (hs : ∀ s ∈ l, subtitleKeep cfg s = false) :
    selectStreams cfg l false = ([v], true) := by
  induction l with
  | nil => simp at hf
  | cons s rest ih =>
    cases hv : isVideo s
    · rw [List.filter_cons_of_neg (by simp [hv])] at hf
      rw [selectStreams_cons_skip cfg s rest false (by simp [hv])
        (ha s (List.mem_cons_self s rest)) (hs s (List.mem_cons_self s rest))]
      exact ih hf (fun t ht => ha t (List.mem_cons_of_mem s ht))
        (fun t ht => hs t (List.mem_cons_of_mem s ht))
    · rw [List.filter_cons_of_pos (by simp [hv])] at hf
      injection hf with h1 h2
      subst h1
      rw [selectStreams_cons_video cfg s rest false (by simp [hv])]
      rw [selectStreams_nothing_kept cfg rest
        (fun t ht => ha t (List.mem_cons_of_mem s ht))
        (fun t ht => hs t (List.mem_cons_of_mem s ht))]

/-- With no video stream anywhere, `get_stream_mappings` raises the
no-video-stream error. -/
theorem get_stream_mappings_eq_error (cfg : ProcessingConfig) (streams : List StreamDict)
    (h : streams.any isVideo = false) :
    get_stream_mappings cfg streams = Except.error SelectionError.noVideoStream := by
  have hsnd : (selectStreams cfg streams false).2 = false := by
    rw [selectStreams_snd]
    simp [h]
  simp [get_stream_mappings, hsnd]

/-! ### The claims -/

/-- C1: for every probe result containing at least one video stream (so
`find?` locates a first video stream `v`), `get_stream_mappings` succeeds
with the map arguments of the selected streams, and the video streams among
the selected streams are exactly `[v]`: the lowest-indexed (first in probe
order) video stream is included and every subsequent video stream is
excluded. -/
theorem c1_first_video_selected (cfg : ProcessingConfig) (streams : List StreamDict)
    (v : StreamDict) (h : streams.find? isVideo = some v) :
    get_stream_mappings cfg streams
      = Except.ok (mkMapArgs ((selectStreams cfg streams false).1.map StreamDict.index)) ∧
    (selectStreams cfg streams false).1.filter isVideo = [v] := by
  have hmem : v ∈ streams := List.mem_of_find?_eq_some h
  have hp : isVideo v = true := List.find?_some h
  have hany : streams.any isVideo = true := List.any_eq_true.mpr ⟨v, hmem, hp⟩
  exact ⟨get_stream_mappings_eq_ok cfg streams hany,
    selectStreams_filter_video cfg streams v h⟩

/-- Witness for C1 at a concrete probe result with two video streams: only
the first one (index 0) is mapped. -/
theorem c1_witness :
    get_stream_mappings ⟨["eng"], ["eng"], true, true⟩
        [⟨0, "video", none⟩, ⟨1, "video", none⟩, ⟨2, "audio", some "eng"⟩]
      = Except.ok ["-map", "0:0", "-map", "0:2"] ∧
    (selectStreams ⟨["eng"], ["eng"], true, true⟩
        [⟨0, "video", none⟩, ⟨1, "video", none⟩, ⟨2, "audio", some "eng"⟩] false).1.filter isVideo
      = [⟨0, "video", none⟩] :=
  c1_first_video_selected ⟨["eng"], ["eng"], true, true⟩
    [⟨0, "video", none⟩, ⟨1, "video", none⟩, ⟨2, "audio", some "eng"⟩]
    ⟨0, "video", none⟩ (by decide)

/-- C2: the selected audio streams are exactly the audio streams whose
language tag is an exact, case-sensitive member of `audio_langs` (and
symmetrically for subtitles); a stream of any other kind is never selected;
for a stream in the probe result, selection is equivalent to membership of
its tag in the policy list; and an audio/subtitle stream whose tags entry is
absent or `"und"` is not selected when the policy list does not contain
`"und"`. -/
theorem c2_language_filtering (cfg : ProcessingConfig) (streams : List StreamDict) :
    (selectStreams cfg streams false).1.filter isAudio = streams.filter (audioKeep cfg) ∧
    (selectStreams cfg streams false).1.filter isSubtitle
      = streams.filter (subtitleKeep cfg) ∧
    (selectStreams cfg streams false).1.filter
      (fun t => !(isVideo t || isAudio t || isSubtitle t)) = [] ∧
    (∀ s ∈ streams, isAudio s = true →
      (s ∈ (selectStreams cfg streams false).1 ↔
        cfg.audio_langs.contains s.language = true)) ∧
    (∀ s ∈ streams, isSubtitle s = true →
      (s ∈ (selectStreams cfg streams false).1 ↔
        cfg.subtitle_langs.contains s.language = true)) ∧
    (∀ s ∈ streams, isAudio s = true →
      (s.tags_language = none ∨ s.tags_language = some "und") →
      cfg.audio_langs.contains "und" = false →
      s ∉ (selectStreams cfg streams false).1) ∧
    (∀ s ∈ streams, isSubtitle s = true →
      (s.tags_language = none ∨ s.tags_language = some "und") →
      cfg.subtitle_langs.contains "und" = false →
      s ∉ (selectStreams cfg streams false).1) := by
  have hAiff : ∀ s ∈ streams, isAudio s = true →
      (s ∈ (selectStreams cfg streams false).1 ↔
        cfg.audio_langs.contains s.language = true) := by
    intro s hmem hA
    constructor
    · intro hsel
      have h1 : s ∈ (selectStreams cfg streams false).1.filter isAudio :=
        List.mem_filter.mpr ⟨hsel, hA⟩
      rw [selectStreams_filter_audio] at h1
      have hk := (List.mem_filter.mp h1).2
      simp only [audioKeep, Bool.and_eq_true] at hk
      exact hk.2
    · intro hcont
      have hk : audioKeep cfg s = true := by
        simp only [audioKeep, Bool.and_eq_true]
        exact ⟨hA, hcont⟩
      have h1 : s ∈ streams.filter (audioKeep cfg) := List.mem_filter.mpr ⟨hmem, hk⟩
      rw [← selectStreams_filter_audio cfg streams false] at h1
      exact (List.mem_filter.mp h1).1
  have hSiff : ∀ s ∈ streams, isSubtitle s = true →
      (s ∈ (selectStreams cfg streams false).1 ↔
        cfg.subtitle_langs.contains s.language = true) := by
    intro s hmem hS
    constructor
    · intro hsel
      have h1 : s ∈ (selectStreams cfg streams false).1.filter isSubtitle :=
        List.mem_filter.mpr ⟨hsel, hS⟩
      rw [selectStreams_filter_subtitle] at h1
      have hk := (List.mem_filter.mp h1).2
      simp only [subtitleKeep, Bool.and_eq_true] at hk
      exact hk.2
    · intro hcont
      have hk : subtitleKeep cfg s = true := by
        simp only [subtitleKeep, Bool.and_eq_true]
        exact ⟨hS, hcont⟩
      have h1 : s ∈ streams.filter (subtitleKeep cfg) := List.mem_filter.mpr ⟨hmem, hk⟩
      rw [← selectStreams_filter_subtitle cfg streams false] at h1
      exact (List.mem_filter.mp h1).1
  have hund : ∀ s : StreamDict,
      (s.tags_language = none ∨ s.tags_language = some "und") → s.language = "und" := by
    intro s hcase
    cases hcase with
    | inl h => simp [StreamDict.language, h]
    | inr h => simp [StreamDict.language, h]
  refine ⟨selectStreams_filter_audio cfg streams false,
    selectStreams_filter_subtitle cfg streams false,
    selectStreams_filter_other cfg streams false, hAiff, hSiff, ?_, ?_⟩
  · intro s hmem hA hl hcont hsel
    have := (hAiff s hmem hA).mp hsel
    rw [hund s hl] at this
    rw [this] at hcont
    exact Bool.noConfusion hcont
  · intro s hmem hS hl hcont hsel
    have := (hSiff s hmem hS).mp hsel
    rw [hund s hl] at this
    rw [this] at hcont
    exact Bool.noConfusion hcont

/-- Witness for C2: with policy audio=[eng], an audio stream with an absent
tags entry (effective tag "und") is not selected. -/
theorem c2_witness :
    (⟨1, "audio", none⟩ : StreamDict) ∉
      (selectStreams ⟨["eng"], ["eng"], true, true⟩
        [⟨0, "video", none⟩, ⟨1, "audio", none⟩] false).1 :=
  (c2_language_filtering ⟨["eng"], ["eng"], true, true⟩
      [⟨0, "video", none⟩, ⟨1, "audio", none⟩]).2.2.2.2.2.1
    ⟨1, "audio", none⟩ (by decide) (by decide) (Or.inl rfl) (by decide)

/-- C3: a probe result with zero video streams fails with the no-video-stream
error, regardless of how many audio or subtitle streams match the policy;
the empty-mapping error is never produced for such an input. -/
theorem c3_no_video_error (cfg : ProcessingConfig) (streams : List StreamDict)
    (h : ∀ s ∈ streams, isVideo s = false) :
    get_stream_mappings cfg streams = Except.error SelectionError.noVideoStream := by
  have hany : streams.any isVideo = false := by
    rw [List.any_eq_false]
    intro x hx
    simp [h x hx]
  exact get_stream_mappings_eq_error cfg streams hany

/-- Witness for C3: no video stream plus one matching and one non-matching
audio stream fails with the no-video-stream error. -/
theorem c3_witness :
    get_stream_mappings ⟨["eng"], ["eng"], true, true⟩
      [⟨0, "audio", some "eng"⟩, ⟨1, "audio", some "jpn"⟩]
      = Except.error SelectionError.noVideoStream :=
  c3_no_video_error ⟨["eng"], ["eng"], true, true⟩
    [⟨0, "audio", some "eng"⟩, ⟨1, "audio", some "jpn"⟩] (by decide)

/-- C4: a probe result whose streams are all of kind video, audio or
subtitle, with exactly one video stream `v` (any language tag) and no audio
or subtitle stream matching the policy, succeeds: the mapping contains only
the video stream's index, and the selection is exactly `[v]`. -/
theorem c4_video_only_success (cfg : ProcessingConfig) (streams : List StreamDict)
    (v : StreamDict) (hf : streams.filter isVideo = [v])
    (_hkinds : ∀ s ∈ streams, isVideo s = true ∨ isAudio s = true ∨ isSubtitle s = true)
    (ha : ∀ s ∈ streams, audioKeep cfg s = false)
    (hs : ∀ s ∈ streams, subtitleKeep cfg s = false) :
    get_stream_mappings cfg streams = Except.ok (mkMapArgs [v.index]) ∧
    (selectStreams cfg streams false).1 = [v] := by
  have hsel : selectStreams cfg streams false = ([v], true) :=
    selectStreams_single_video cfg streams v hf ha hs
  have hvmem : v ∈ streams.filter isVideo := by
    rw [hf]
    exact List.mem_singleton.mpr rfl
  have hany : streams.any isVideo = true :=
    List.any_eq_true.mpr ⟨v, (List.mem_filter.mp hvmem).1, (List.mem_filter.mp hvmem).2⟩
  have hok := get_stream_mappings_eq_ok cfg streams hany
  rw [hsel] at hok
  exact ⟨hok, by rw [hsel]⟩

/-- Witness for C4: one video stream plus a non-matching audio stream gives
a video-only mapping. -/
theorem c4_witness :
    get_stream_mappings ⟨["eng"], ["eng"], true, true⟩
      [⟨0, "video", some "jpn"⟩, ⟨1, "audio", some "fra"⟩]
      = Except.ok ["-map", "0:0"] ∧
    (selectStreams ⟨["eng"], ["eng"], true, true⟩
      [⟨0, "video", some "jpn"⟩, ⟨1, "audio", some "fra"⟩] false).1
      = [⟨0, "video", some "jpn"⟩] :=
  c4_video_only_success ⟨["eng"], ["eng"], true, true⟩
    [⟨0, "video", some "jpn"⟩, ⟨1, "audio", some "fra"⟩]
    ⟨0, "video", some "jpn"⟩ (by decide) (by decide) (by decide) (by decide)

/-- C5: the selected streams are always a sublist of the probed streams
(same ascending probe order, stable, no re-ordering); and on the spec's
example (policy audio=[eng], subtitle=[eng]; streams video@0, audio-eng@1,
audio-jpn@2, subtitle-eng@3) the mapping is exactly indices 0, 1, 3. -/
theorem c5_stable_order :
    (∀ (cfg : ProcessingConfig) (streams : List StreamDict) (vm : Bool),
      ((selectStreams cfg streams vm).1).Sublist streams) ∧
    get_stream_mappings ⟨["eng"], ["eng"], true, true⟩
      [⟨0, "video", none⟩, ⟨1, "audio", some "eng"⟩, ⟨2, "audio", some "jpn"⟩,
       ⟨3, "subtitle", some "eng"⟩]
      = Except.ok ["-map", "0:0", "-map", "0:1", "-map", "0:3"] :=
  ⟨selectStreams_sublist, rfl⟩

/-- C6 counterexample: with policy audio=[eng] and streams audio-eng@0,
video@1, `get_stream_mappings` succeeds, the first video stream has index 1,
yet the first index in the mapping is 0 (the audio stream), refuting the
claim that the first video stream's index always comes first in the
mapping. -/
theorem c6_counterexample :
    get_stream_mappings ⟨["eng"], ["eng"], true, true⟩
      [⟨0, "audio", some "eng"⟩, ⟨1, "video", none⟩]
      = Except.ok ["-map", "0:0", "-map", "0:1"] ∧
    ([⟨0, "audio", some "eng"⟩, ⟨1, "video", none⟩] : List StreamDict).find? isVideo
      = some ⟨1, "video", none⟩ ∧
    ((selectStreams ⟨["eng"], ["eng"], true, true⟩
        [⟨0, "audio", some "eng"⟩, ⟨1, "video", none⟩] false).1.map StreamDict.index).head?
      = some 0 :=
  ⟨rfl, by decide, rfl⟩

/-- C6 amended: for every probe result for which `get_stream_mappings`
succeeds, a video stream exists and the first video stream is among the
selected streams (its index is in the mapping); it appears in probe-order
position, not necessarily first. -/
theorem c6_amended_first_video_in_mapping (cfg : ProcessingConfig)
    (streams : List StreamDict) (m : List String)
    (h : get_stream_mappings cfg streams = Except.ok m) :
    streams.any isVideo = true ∧
    ∀ v, streams.find? isVideo = some v → v ∈ (selectStreams cfg streams false).1 := by
  have hany : streams.any isVideo = true := by
    cases hv : streams.any isVideo
    · rw [get_stream_mappings_eq_error cfg streams hv] at h
      exact Except.noConfusion h
    · rfl
  refine ⟨hany, ?_⟩
  intro v hv
  have hfil := selectStreams_filter_video cfg streams v hv
  have hmem : v ∈ (selectStreams cfg streams false).1.filter isVideo := by
    rw [hfil]
    exact List.mem_singleton.mpr rfl
  exact (List.mem_filter.mp hmem).1

/-- Witness for C6 amended, at the counterexample input: the video stream is
present among the selected streams even though it is not first. -/
theorem c6_witness :
    ([⟨0, "audio", some "eng"⟩, ⟨1, "video", none⟩] : List StreamDict).any isVideo = true ∧
    (⟨1, "video", none⟩ : StreamDict) ∈
      (selectStreams ⟨["eng"], ["eng"], true, true⟩
        [⟨0, "audio", some "eng"⟩, ⟨1, "video", none⟩] false).1 :=
  ⟨(c6_amended_first_video_in_mapping ⟨["eng"], ["eng"], true, true⟩
      [⟨0, "audio", some "eng"⟩, ⟨1, "video", none⟩] ["-map", "0:0", "-map", "0:1"] rfl).1,
   (c6_amended_first_video_in_mapping ⟨["eng"], ["eng"], true, true⟩
      [⟨0, "audio", some "eng"⟩, ⟨1, "video", none⟩] ["-map", "0:0", "-map", "0:1"] rfl).2
     ⟨1, "video", none⟩ (by decide)⟩

/-- C7 (code bug): evaluating `verify_output` — the missing-file and
empty-file checks fail as claimed, but once the output exists with non-zero
size, verification succeeds unconditionally: the probe call inside
`verify_output` is `self.probe_file()` with no argument, which returns the
cached INPUT probe (here `some [video@0]`), so the output file is never
re-probed and an unprobeable output cannot fail verification (the claimed
third failure condition is unreachable; note the result does not depend on
any property of the output file's content). -/
theorem c7_verify_never_probes_output :
    verify_output (some [⟨0, "video", none⟩]) (Except.error "ffprobe failed") false 1
      = Except.error VerifyError.failedToCreate ∧
    verify_output (some [⟨0, "video", none⟩]) (Except.error "ffprobe failed") true 0
      = Except.error VerifyError.emptyOutput ∧
    verify_output (some [⟨0, "video", none⟩]) (Except.error "ffprobe failed") true 1
      = Except.ok () :=
  ⟨rfl, rfl, rfl⟩

/-- C8 (code bug): `validate_dependencies` returns `true` even when the
ffmpeg check raises `FileNotFoundError` (or any other exception), because
the handlers discard `log_error_and_return_false`'s `false` and fall through
to `return True`; so a missing external tool does not stop the batch. -/
theorem c8_missing_ffmpeg_not_fatal :
    validate_dependencies FfmpegCheck.notFound = true ∧
    validate_dependencies (FfmpegCheck.otherError "boom") = true ∧
    log_error_and_return_false "Missing dependency: ffmpeg." = false :=
  ⟨rfl, rfl, rfl⟩

/-- C9 counterexample: on a fully successful fresh run (probe ok, selection
ok, ffmpeg exit 0, verification enabled and passing), the status trace is
initializing, processing, analyzing, verifying, completed — `analyzing`
follows `processing`, so the claimed monotone order initializing →
analyzing → processing → verifying → completed is violated. -/
theorem c9_counterexample :
    processTrace ⟨["eng"], ["eng"], true, true⟩
        ⟨Except.ok [⟨0, "video", none⟩], true, true, 1⟩
      = [ProcessingStatus.initializing, ProcessingStatus.processing,
         ProcessingStatus.analyzing, ProcessingStatus.verifying,
         ProcessingStatus.completed] ∧
    claimedMonotone (processTrace ⟨["eng"], ["eng"], true, true⟩
        ⟨Except.ok [⟨0, "video", none⟩], true, true, 1⟩) = false :=
  ⟨rfl, rfl⟩

/-- C9 amended: every fresh single-file run produces one of five status
traces, each beginning initializing, processing, analyzing in that order
(`process` sets PROCESSING on entry, before the lazy first probe sets
ANALYZING), then optionally verifying, and ending in completed or failed;
`failed` and `completed` are terminal. -/
theorem c9_amended_trace_shapes (cfg : ProcessingConfig) (env : ProcEnv) :
    processTrace cfg env
      = [ProcessingStatus.initializing, ProcessingStatus.processing,
         ProcessingStatus.analyzing, ProcessingStatus.failed, ProcessingStatus.failed] ∨
    processTrace cfg env
      = [ProcessingStatus.initializing, ProcessingStatus.processing,
         ProcessingStatus.analyzing, ProcessingStatus.failed] ∨
    processTrace cfg env
      = [ProcessingStatus.initializing, ProcessingStatus.processing,
         ProcessingStatus.analyzing, ProcessingStatus.verifying, ProcessingStatus.failed] ∨
    processTrace cfg env
      = [ProcessingStatus.initializing, ProcessingStatus.processing,
         ProcessingStatus.analyzing, ProcessingStatus.verifying, ProcessingStatus.completed] ∨
    processTrace cfg env
      = [ProcessingStatus.initializing, ProcessingStatus.processing,
         ProcessingStatus.analyzing, ProcessingStatus.completed] := by
  obtain ⟨pr, fok, oe, os⟩ := env
  cases pr with
  | error e =>
    left
    rfl
  | ok pd =>
    cases hg : get_stream_mappings cfg pd with
    | error e =>
      right; left
      simp [processTrace, hg]
    | ok m =>
      cases fok with
      | false =>
        right; left
        simp [processTrace, hg]
      | true =>
        cases hv : cfg.verify_output with
        | false =>
          right; right; right; right
          simp [processTrace, hg, hv]
        | true =>
          cases hvo : verify_output (some pd) (Except.ok pd) oe os with
          | error e2 =>
            right; right; left
            simp [processTrace, hg, hv, hvo]
          | ok u =>
            right; right; right; left
            simp [processTrace, hg, hv, hvo]

/-- C10: for every probe result and policy, `get_stream_mappings` either
fails with the no-video-stream error or succeeds; the "No matching streams
found" error is unreachable, because whenever the no-video check passes the
first video stream is in the mapping, making it non-empty. -/
theorem c10_no_matching_unreachable (cfg : ProcessingConfig) (streams : List StreamDict) :
    get_stream_mappings cfg streams = Except.error SelectionError.noVideoStream ∨
    ∃ m, get_stream_mappings cfg streams = Except.ok m := by
  cases hv : streams.any isVideo
  · exact Or.inl (get_stream_mappings_eq_error cfg streams hv)
  · exact Or.inr ⟨_, get_stream_mappings_eq_ok cfg streams hv⟩
